import Mathlib

/-!
Verification of the TideSense riptide-detection core (`src/server/main.py`,
endpoint `infer_image`) against its natural-language specification.

The numeric pipeline is shallowly embedded over `ℚ`:
image bytes → preprocess (center-crop) → model forward pass (abstracted as a
raw output tensor) → decode to a danger probability → round/tier → result.
Python floats are modelled as rationals; `round(x, 2)` as `round2`.
-/

namespace TideSense

/-- Result record returned by the `/infer` endpoint (`DetectionResult` in
`main.py`); `location` and `weatherAlerts` are always `None` on this endpoint
and are omitted. -/
structure DetectionResult where
  status : String
  probability : ℚ
  timestamp : String
  recommendations : List String
  deriving DecidableEq

/-- Python `round(y, 2)`: round to 2 decimal places. -/
def round2 (y : ℚ) : ℚ := ((round (y * 100) : ℤ) : ℚ) / 100

/-- `np.max` over a list of tensor elements (NumPy errors on the empty array;
we return `0` there, and every theorem that depends on the maximum assumes
nonemptiness). -/
def listMax : List ℚ → ℚ
  | [] => 0
  | [x] => x
  | x :: y :: t => max x (listMax (y :: t))

/-- A NumPy ndarray: its shape together with row-major flattened data. -/
structure RawTensor where
  shape : List ℕ
  data : List ℚ
  deriving DecidableEq

/-- `out[0, 4, :]` for an array of shape `[batch, attrs, num_detections]`
in row-major order: the per-detection confidence channel. -/
def confSlice (data : List ℚ) (num_detections : ℕ) : List ℚ :=
  (data.drop (4 * num_detections)).take num_detections

/-- Lines 499–507 of `main.py`:
`top_k = min(5, len(confidences))`, `top_confidences = np.sort(confidences)[-top_k:]`,
`avg_top_conf = mean(top_confidences)`, `max_conf = np.max(confidences)`,
`stable_conf = 0.7 * avg_top_conf + 0.3 * max_conf`.
`np.sort` is ascending, so the slice `[-top_k:]` is `drop (length - top_k)`. -/
def stabilizedOf (confidences : List ℚ) : ℚ :=
  let top_k := min 5 confidences.length
  let sorted := confidences.insertionSort (· ≤ ·)
  let top_confidences := sorted.drop (sorted.length - top_k)
  let avg_top_conf := top_confidences.sum / (top_k : ℚ)
  let max_conf := listMax confidences
  7/10 * avg_top_conf + 3/10 * max_conf

/-- Lines 516–527 of `main.py`: Stage A, stabilized score → danger probability.
The code tests `stable_conf >= 0.28` first, then `>= 0.18`, else the safe band. -/
def dangerProb (stable_conf : ℚ) : ℚ :=
  if 28/100 ≤ stable_conf then min (85/100) (60/100 + (stable_conf - 28/100) * 2)
  else if 18/100 ≤ stable_conf then 40/100 + (stable_conf - 18/100) * 2
  else min (35/100) (10/100 + stable_conf * (3/2))

/-- Lines 472–536 of `main.py`: the raw output tensor → `danger_prob`.
Rank-3 output with ≥ 5 attributes takes the stabilized decode followed by
Stage A; otherwise `danger_prob = float(np.max(out))` directly. -/
def decodeDanger (out : RawTensor) : ℚ :=
  match out.shape with
  | [_batch, attrs, num_detections] =>
    if 5 ≤ attrs then dangerProb (stabilizedOf (confSlice out.data num_detections))
    else listMax out.data
  | _ => listMax out.data

/-- Lines 543–551 of `main.py`: Stage B, `status` from `danger_prob`. -/
def dangerStatus (danger_prob : ℚ) : String :=
  if 65/100 ≤ danger_prob then "HIGH"
  else if 35/100 ≤ danger_prob then "MODERATE"
  else "LOW"

/-- Lines 543–551 of `main.py`: Stage B, `risk_level` from `danger_prob`
(same branch structure as `dangerStatus`). -/
def dangerRiskLevel (danger_prob : ℚ) : String :=
  if 65/100 ≤ danger_prob then "high"
  else if 35/100 ≤ danger_prob then "moderate"
  else "low"

/-- Lines 668–693 of `main.py` (`generate_recommendations`); the garbled
emoji prefixes of the first entries are elided, and the f-string
interpolation of `confidence` is modelled with `toString`. -/
def generate_recommendations (risk_level : String) (confidence : ℚ) : List String :=
  if risk_level = "high" then
    ["DO NOT ENTER THE WATER - Dangerous riptide detected",
     "Stay at least 100 feet away from the shoreline",
     "Alert lifeguards or authorities immediately",
     "Warn others in the vicinity",
     "Detection confidence: " ++ toString confidence ++ "% - High certainty"]
  else if risk_level = "moderate" then
    ["CAUTION - Possible riptide conditions detected",
     "Exercise extreme caution if entering water",
     "Stay close to shore and in designated swimming areas",
     "Swim parallel to shore if caught in a current",
     "Detection confidence: " ++ toString confidence ++ "% - Moderate certainty"]
  else
    ["Conditions appear relatively safe",
     "Always swim near a lifeguard",
     "Never swim alone",
     "Be aware conditions can change quickly",
     "Detection confidence: " ++ toString confidence ++ "% - Low risk detected"]

/-- Lines 538–567 of `main.py`: assemble the `DetectionResult` returned on a
successful real-model run, from the raw output tensor. -/
def realDetection (out : RawTensor) (now : String) : DetectionResult :=
  let danger_prob := decodeDanger out
  let confidence := round2 (danger_prob * 100)
  { status := dangerStatus danger_prob
    probability := confidence
    timestamp := now
    recommendations := generate_recommendations (dangerRiskLevel danger_prob) confidence }

/-- Lines 574–598 of `main.py`: the Mock fallback.
`confidence = round(10 + random.random() * 80, 2)` with the sampled value
`rand ∈ [0, 1)` made explicit; then thresholds on `confidence` itself. -/
def mockDetection (rand : ℚ) (now : String) : DetectionResult :=
  let confidence := round2 (10 + rand * 80)
  let status := if confidence < 30 then "LOW"
    else if confidence < 60 then "MODERATE" else "HIGH"
  let risk_level := if confidence < 30 then "low"
    else if confidence < 60 then "moderate" else "high"
  { status := status
    probability := confidence
    timestamp := now
    recommendations := generate_recommendations risk_level confidence }

/-- The environment a single `/infer` request runs in: which of the fallible
steps of `infer_image` succeed, the model's raw output tensor when the real
path completes, the `random.random()` sample used by the Mock path, and the
current time. -/
structure InferEnv where
  /-- writing the uploaded bytes to the tmp file succeeds (lines 383–388). -/
  saveOk : Bool
  /-- a TFLite interpreter could be imported (lines 393–405). -/
  interpreterAvailable : Bool
  /-- the model artifact exists at the configured path (lines 413–416). -/
  modelExists : Bool
  /-- `Image.open(...).convert('RGB')` succeeds (line 431). -/
  imageOk : Bool
  /-- model load, tensor allocation and the forward pass succeed. -/
  runOk : Bool
  /-- the raw output tensor read back from the interpreter. -/
  out : RawTensor
  /-- the `random.random()` sample of the Mock path. -/
  mockRand : ℚ
  /-- `datetime.datetime.now().isoformat()`. -/
  now : String
  /-- the message of the exception, if any, for the HTTP 500 detail. -/
  errMsg : String

/-- Outcome of a request: a 200 with a `DetectionResult`, or an
`HTTPException`. -/
inductive InferResponse where
  | ok (result : DetectionResult)
  | httpError (code : ℕ) (detail : String)
  deriving DecidableEq

/-- Control flow of `infer_image` (lines 371–604 of `main.py`): the whole
body is wrapped in a try/except raising HTTP 500; inside it, the real-model
block (model lookup, image decode, forward pass, decode/classify) sits in its
own try whose `except` falls through to the Mock fallback.  The real path is
taken exactly when the interpreter is importable, the model file exists, the
image decodes and the run succeeds; any failure among these degrades to Mock. -/
def infer_image (env : InferEnv) : InferResponse :=
  if env.saveOk = false then .httpError 500 env.errMsg
  else if env.interpreterAvailable && env.modelExists && env.imageOk && env.runOk then
    .ok (realDetection env.out env.now)
  else
    .ok (mockDetection env.mockRand env.now)

/-- An RGB image as PIL presents it: width, height, and a pixel lookup. -/
structure Img where
  width : ℕ
  height : ℕ
  px : ℕ → ℕ → ℕ × ℕ × ℕ

/-- `img.crop((left, top, right, bottom))` in PIL: the box's pixel `(x, y)`
is the original's `(left + x, top + y)`. -/
def crop (img : Img) (left top right bottom : ℕ) : Img :=
  { width := right - left
    height := bottom - top
    px := fun x y => img.px (left + x) (top + y) }

/-- Lines 436–442 of `main.py`: center-crop to the largest square when the
image is not already square (`//` is `Nat` division). -/
def centerSquare (img : Img) : Img :=
  if img.width ≠ img.height then
    let size := min img.width img.height
    let left := (img.width - size) / 2
    let top := (img.height - size) / 2
    crop img left top (left + size) (top + size)
  else img

/-! ### Spec-side definitions

These are written from the specification's wording, to be compared with the
definitions above, which are translated from the source. -/

/-- Stage A as the spec states it: branch on `s < 0.18` first, then
`0.18 ≤ s < 0.28`, then `s ≥ 0.28`. -/
def dangerProbSpec (s : ℚ) : ℚ :=
  if s < 18/100 then min (35/100) (10/100 + s * (3/2))
  else if s < 28/100 then 40/100 + (s - 18/100) * 2
  else min (85/100) (60/100 + (s - 28/100) * 2)

/-- The `k` largest elements of a list: the first `k` of its descending sort. -/
def topKLargest (l : List ℚ) (k : ℕ) : List ℚ :=
  (l.insertionSort (· ≥ ·)).take k

/-- Numeric height of a tier string, for stating monotonicity. -/
def tierRank (status : String) : ℕ :=
  if status = "HIGH" then 2 else if status = "MODERATE" then 1 else 0

/-- A raw output tensor as the real model hands it back: the flattened data
has exactly `shape.prod` elements, every element is a model confidence in
`[0, 1]`, and on the rank-3 decode path batch and detection counts are
positive (NumPy would error on an empty confidence row). -/
def validOutput (t : RawTensor) : Prop :=
  t.data.length = t.shape.prod ∧
  (∀ x ∈ t.data, 0 ≤ x ∧ x ≤ 1) ∧
  (∀ b attrs dets, t.shape = [b, attrs, dets] → 5 ≤ attrs → 1 ≤ b ∧ 1 ≤ dets)

/-! ### Concrete inputs used by witnesses and counterexamples -/

/-- A concrete 400 × 300 image. -/
def img400 : Img :=
  { width := 400, height := 300, px := fun x y => (x, y, 0) }

/-- A concrete rank-2 raw output tensor, exercising the shape-fallback path;
its maximum element is `0.5`. -/
def fallbackTensor : RawTensor :=
  ⟨[2, 2], [1/2, 1/10, 1/5, 3/10]⟩

/-- A concrete rank-3 output tensor of shape `[1, 5, 3]` whose confidence
row (attribute index 4) is `[1/10, 1/2, 3/10]`. -/
def normalTensor : RawTensor :=
  ⟨[1, 5, 3], [0, 0, 0, 0, 0, 0, 0, 0, 0, 0, 0, 0, 1/10, 1/2, 3/10]⟩

/-- A rank-3 output tensor of shape `[1, 5, 1]` with every confidence
saturated at `1.0`. -/
def saturatedTensor : RawTensor :=
  ⟨[1, 5, 1], [0, 0, 0, 0, 1]⟩

/-- A request environment in which the interpreter and the model are
available but the uploaded bytes do not decode as an image. -/
def badImageEnv : InferEnv :=
  { saveOk := true
    interpreterAvailable := true
    modelExists := true
    imageOk := false
    runOk := true
    out := ⟨[1, 5, 1], [0, 0, 0, 0, 1/2]⟩
    mockRand := 1/2
    now := "2025-01-01T00:00:00"
    errMsg := "" }

/-! ### Helper lemmas -/

theorem listMax_cons (x : ℚ) (l : List ℚ) (h : l ≠ []) :
    listMax (x :: l) = max x (listMax l) := by
  cases l with
  | nil => exact absurd rfl h
  | cons y t => rfl

theorem listMax_mem : ∀ l : List ℚ, l ≠ [] → listMax l ∈ l := by
  intro l
  induction l with
  | nil => intro h; exact absurd rfl h
  | cons x t ih =>
    intro _
    cases t with
    | nil => simp [listMax]
    | cons y s =>
      rw [listMax_cons x (y :: s) (by simp)]
      rcases max_cases x (listMax (y :: s)) with ⟨hm, _⟩ | ⟨hm, _⟩
      · rw [hm]; exact List.mem_cons_self x _
      · rw [hm]; exact List.mem_cons_of_mem x (ih (by simp))

theorem le_listMax : ∀ l : List ℚ, ∀ x ∈ l, x ≤ listMax l := by
  intro l
  induction l with
  | nil => intro x hx; exact absurd hx (by simp)
  | cons a t ih =>
    intro x hx
    cases t with
    | nil =>
      rcases List.mem_cons.mp hx with rfl | hx
      · exact le_refl _
      · exact absurd hx (by simp)
    | cons y s =>
      rw [listMax_cons a (y :: s) (by simp)]
      rcases List.mem_cons.mp hx with rfl | hx
      · exact le_max_left _ _
      · exact le_trans (ih x hx) (le_max_right _ _)

theorem listMax_le (l : List ℚ) (c : ℚ) (hc : 0 ≤ c) (h : ∀ x ∈ l, x ≤ c) :
    listMax l ≤ c := by
  cases l with
  | nil => exact hc
  | cons a t => exact h _ (listMax_mem (a :: t) (by simp))

theorem listMax_nonneg (l : List ℚ) (h : ∀ x ∈ l, 0 ≤ x) : 0 ≤ listMax l := by
  cases l with
  | nil => exact le_refl _
  | cons a t => exact h _ (listMax_mem (a :: t) (by simp))

theorem round2_mono {a b : ℚ} (h : a ≤ b) : round2 a ≤ round2 b := by
  unfold round2
  have hr : round (a * 100) ≤ round (b * 100) := by
    rw [round_eq, round_eq]
    exact Int.floor_le_floor (by linarith)
  have hq : ((round (a * 100) : ℤ) : ℚ) ≤ ((round (b * 100) : ℤ) : ℚ) :=
    Int.cast_le.mpr hr
  linarith

theorem round2_intCast (n : ℤ) : round2 ((n : ℚ)) = n := by
  unfold round2
  have h : (n : ℚ) * 100 = ((n * 100 : ℤ) : ℚ) := by push_cast; ring
  rw [h, round_intCast]
  push_cast
  ring

theorem round2_den (y : ℚ) : (round2 y * 100).den = 1 := by
  unfold round2
  have h : ((round (y * 100) : ℤ) : ℚ) / 100 * 100 = ((round (y * 100) : ℤ) : ℚ) := by
    field_simp
  rw [h, Rat.den_intCast]

theorem dangerProb_mono {s1 s2 : ℚ} (h : s1 ≤ s2) : dangerProb s1 ≤ dangerProb s2 := by
  unfold dangerProb
  simp only [min_def]
  split_ifs <;> linarith

theorem dangerProb_le (s : ℚ) : dangerProb s ≤ 85/100 := by
  unfold dangerProb
  simp only [min_def]
  split_ifs <;> linarith

theorem dangerProb_range (s : ℚ) (hs : 0 ≤ s) :
    0 ≤ dangerProb s ∧ dangerProb s ≤ 1 := by
  unfold dangerProb
  simp only [min_def]
  constructor <;> (split_ifs <;> linarith)

theorem tierRank_dangerStatus_mono {d1 d2 : ℚ} (h : d1 ≤ d2) :
    tierRank (dangerStatus d1) ≤ tierRank (dangerStatus d2) := by
  unfold dangerStatus
  split_ifs <;> first | decide | linarith

theorem sort_descending_eq (l : List ℚ) :
    l.insertionSort (· ≥ ·) = (l.insertionSort (· ≤ ·)).reverse := by
  apply List.eq_of_perm_of_sorted (r := (· ≥ · : ℚ → ℚ → Prop))
  · exact (l.perm_insertionSort _).trans
      (((l.perm_insertionSort (· ≤ ·)).symm).trans (List.reverse_perm _).symm)
  · exact List.sorted_insertionSort _ l
  · have hs := List.sorted_insertionSort (· ≤ ·) l
    exact List.pairwise_reverse.mpr hs

theorem topk_sum_eq (l : List ℚ) (k : ℕ) :
    ((l.insertionSort (· ≤ ·)).drop ((l.insertionSort (· ≤ ·)).length - k)).sum
      = (topKLargest l k).sum := by
  unfold topKLargest
  rw [sort_descending_eq, List.take_reverse, List.sum_reverse]

theorem confSlice_subset (data : List ℚ) (dets : ℕ) :
    ∀ x ∈ confSlice data dets, x ∈ data := by
  intro x hx
  exact List.drop_subset _ _ (List.take_subset _ _ hx)

theorem confSlice_length (t : RawTensor) (b attrs dets : ℕ)
    (hshape : t.shape = [b, attrs, dets]) (hattrs : 5 ≤ attrs) (hb : 1 ≤ b)
    (hlen : t.data.length = t.shape.prod) :
    (confSlice t.data dets).length = dets := by
  have hlen' : t.data.length = b * (attrs * dets) := by
    rw [hlen, hshape]
    simp [List.prod_cons]
  have h1 : 5 * dets ≤ attrs * dets := Nat.mul_le_mul_right dets hattrs
  have h2 : attrs * dets ≤ b * (attrs * dets) := Nat.le_mul_of_pos_left _ hb
  simp only [confSlice, List.length_take, List.length_drop]
  omega

theorem stabilizedOf_range (conf : List ℚ) (hne : conf ≠ [])
    (h01 : ∀ x ∈ conf, 0 ≤ x ∧ x ≤ 1) :
    0 ≤ stabilizedOf conf ∧ stabilizedOf conf ≤ 1 := by
  have hlenpos : 1 ≤ conf.length := by
    cases conf with
    | nil => exact absurd rfl hne
    | cons a t => simp
  have hk : 1 ≤ min 5 conf.length := le_min (by norm_num) hlenpos
  have hks : min 5 conf.length ≤ (conf.insertionSort (· ≤ ·)).length := by
    rw [List.length_insertionSort]
    exact min_le_right _ _
  have htoplen :
      ((conf.insertionSort (· ≤ ·)).drop
        ((conf.insertionSort (· ≤ ·)).length - min 5 conf.length)).length
        = min 5 conf.length := by
    rw [List.length_drop]
    omega
  have hmemconf : ∀ x ∈ (conf.insertionSort (· ≤ ·)).drop
      ((conf.insertionSort (· ≤ ·)).length - min 5 conf.length), 0 ≤ x ∧ x ≤ 1 := by
    intro x hx
    have hx1 : x ∈ conf.insertionSort (· ≤ ·) := List.drop_subset _ _ hx
    exact h01 x ((List.mem_insertionSort _).mp hx1)
  have hsum0 : 0 ≤ ((conf.insertionSort (· ≤ ·)).drop
      ((conf.insertionSort (· ≤ ·)).length - min 5 conf.length)).sum :=
    List.sum_nonneg fun x hx => (hmemconf x hx).1
  have hsum1 : ((conf.insertionSort (· ≤ ·)).drop
      ((conf.insertionSort (· ≤ ·)).length - min 5 conf.length)).sum
      ≤ ((min 5 conf.length : ℕ) : ℚ) := by
    have := List.sum_le_card_nsmul
      ((conf.insertionSort (· ≤ ·)).drop
        ((conf.insertionSort (· ≤ ·)).length - min 5 conf.length)) 1
      (fun x hx => (hmemconf x hx).2)
    rw [htoplen] at this
    simpa using this
  have hkq : (0 : ℚ) < ((min 5 conf.length : ℕ) : ℚ) := by
    exact_mod_cast hk
  have hmax0 : 0 ≤ listMax conf := listMax_nonneg conf fun x hx => (h01 x hx).1
  have hmax1 : listMax conf ≤ 1 := listMax_le conf 1 (by norm_num) fun x hx => (h01 x hx).2
  have havg0 : 0 ≤ ((conf.insertionSort (· ≤ ·)).drop
      ((conf.insertionSort (· ≤ ·)).length - min 5 conf.length)).sum
        / ((min 5 conf.length : ℕ) : ℚ) := div_nonneg hsum0 hkq.le
  have havg1 : ((conf.insertionSort (· ≤ ·)).drop
      ((conf.insertionSort (· ≤ ·)).length - min 5 conf.length)).sum
        / ((min 5 conf.length : ℕ) : ℚ) ≤ 1 := by
    rw [div_le_one hkq]
    exact hsum1
  simp only [stabilizedOf]
  constructor <;> linarith

theorem decodeDanger_range (t : RawTensor) (hv : validOutput t) :
    0 ≤ decodeDanger t ∧ decodeDanger t ≤ 1 := by
  obtain ⟨hlen, h01, hshape3⟩ := hv
  have hmax : 0 ≤ listMax t.data ∧ listMax t.data ≤ 1 :=
    ⟨listMax_nonneg _ fun x hx => (h01 x hx).1,
     listMax_le _ 1 (by norm_num) fun x hx => (h01 x hx).2⟩
  unfold decodeDanger
  split
  · next b attrs dets heq =>
    split_ifs with hattrs
    · obtain ⟨hb, hdets⟩ := hshape3 b attrs dets heq hattrs
      have hclen : (confSlice t.data dets).length = dets :=
        confSlice_length t b attrs dets heq hattrs hb hlen
      have hne : confSlice t.data dets ≠ [] := by
        intro hnil
        rw [hnil] at hclen
        simp at hclen
        omega
      have hc01 : ∀ x ∈ confSlice t.data dets, 0 ≤ x ∧ x ≤ 1 :=
        fun x hx => h01 x (confSlice_subset _ _ x hx)
      have hs := stabilizedOf_range _ hne hc01
      have hd := dangerProb_range _ hs.1
      exact hd
    · exact hmax
  · exact hmax

/-! ### Claim theorems -/

/-- C2: for every stabilized score `s`, Stage A computes the danger
probability exactly as the piecewise-linear clamped map of the claim:
`s < 0.18 → min 0.35 (0.10 + 1.5 s)`; `0.18 ≤ s < 0.28 → 0.40 + 2 (s - 0.18)`;
`0.28 ≤ s → min 0.85 (0.60 + 2 (s - 0.28))`. -/
theorem stageA_piecewise (s : ℚ) : dangerProb s = dangerProbSpec s := by
  unfold dangerProb dangerProbSpec
  split_ifs <;> first | rfl | linarith

/-- C3: Stage B assigns `HIGH` for danger `≥ 0.65`, `MODERATE` on
`[0.35, 0.65)`, `LOW` below `0.35`, and the `status` field of the returned
`DetectionResult` is exactly that string. -/
theorem stageB_tier (d : ℚ) (t : RawTensor) (now : String) :
    (65/100 ≤ d → dangerStatus d = "HIGH") ∧
    (35/100 ≤ d ∧ d < 65/100 → dangerStatus d = "MODERATE") ∧
    (d < 35/100 → dangerStatus d = "LOW") ∧
    (realDetection t now).status = dangerStatus (decodeDanger t) := by
  refine ⟨fun h => ?_, fun h => ?_, fun h => ?_, rfl⟩
  · unfold dangerStatus
    rw [if_pos h]
  · obtain ⟨h1, h2⟩ := h
    unfold dangerStatus
    rw [if_neg (by linarith), if_pos h1]
  · unfold dangerStatus
    rw [if_neg (by linarith), if_neg (by linarith)]

/-- Witness for C3 at the concrete danger probability `0.7`. -/
theorem stageB_tier_witness :
    (65/100 : ℚ) ≤ 7/10 ∧ dangerStatus (7/10) = "HIGH" :=
  ⟨by norm_num, (stageB_tier (7/10) ⟨[2, 2], [0, 0, 0, 0]⟩ "t").1 (by norm_num)⟩

/-- C6: the composed stabilized-score → tier map is monotone: for
`s1 < s2` the tier at `s1` is never strictly higher than the tier at `s2`. -/
theorem tier_monotone (s1 s2 : ℚ) (h : s1 < s2) :
    tierRank (dangerStatus (dangerProb s1)) ≤ tierRank (dangerStatus (dangerProb s2)) :=
  tierRank_dangerStatus_mono (dangerProb_mono h.le)

/-- Witness for C6 at the concrete pair `0.1 < 0.3`. -/
theorem tier_monotone_witness :
    (1/10 : ℚ) < 3/10 ∧
    tierRank (dangerStatus (dangerProb (1/10))) ≤ tierRank (dangerStatus (dangerProb (3/10))) :=
  ⟨by norm_num, tier_monotone (1/10) (3/10) (by norm_num)⟩

/-- C8: the classifier maps the spec's boundary inputs exactly:
`0.10 ↦ (0.25, LOW)`, `0.20 ↦ (0.44, MODERATE)`, `0.35 ↦ (0.74, HIGH)`,
`0.28 ↦ (0.60, MODERATE)` (the `≥ 0.28` branch clamping at `0.60`). -/
theorem boundary_values :
    dangerProb (10/100) = 25/100 ∧ dangerStatus (dangerProb (10/100)) = "LOW" ∧
    dangerProb (20/100) = 44/100 ∧ dangerStatus (dangerProb (20/100)) = "MODERATE" ∧
    dangerProb (35/100) = 74/100 ∧ dangerStatus (dangerProb (35/100)) = "HIGH" ∧
    dangerProb (28/100) = 60/100 ∧ dangerStatus (dangerProb (28/100)) = "MODERATE" := by
  refine ⟨?_, ?_, ?_, ?_, ?_, ?_, ?_, ?_⟩ <;>
    norm_num [dangerProb, dangerStatus, min_def]

/-- C9: a non-square `w × h` image is center-cropped to the square of side
`min w h` at offset `((w - size)/2, (h - size)/2)` (pixels shift by exactly
that offset); for `400 × 300` the crop is `left = 50, top = 0, size = 300`. -/
theorem center_crop (img : Img) (h : img.width ≠ img.height) :
    (centerSquare img).width = min img.width img.height ∧
    (centerSquare img).height = min img.width img.height ∧
    (∀ x y, (centerSquare img).px x y =
      img.px ((img.width - min img.width img.height) / 2 + x)
        ((img.height - min img.width img.height) / 2 + y)) ∧
    (img.width = 400 → img.height = 300 →
      (img.width - min img.width img.height) / 2 = 50 ∧
      (img.height - min img.width img.height) / 2 = 0 ∧
      min img.width img.height = 300) := by
  unfold centerSquare
  rw [if_pos h]
  refine ⟨?_, ?_, fun x y => rfl, fun hw hh => ?_⟩
  · simp [crop]
  · simp [crop]
  · rw [hw, hh]
    norm_num

/-- Witness for C9 at a concrete 400 × 300 image. -/
theorem center_crop_witness :
    img400.width ≠ img400.height ∧
    (centerSquare img400).width = 300 ∧ (centerSquare img400).height = 300 ∧
    (centerSquare img400).px 0 0 = img400.px 50 0 := by
  have h : img400.width ≠ img400.height := by decide
  obtain ⟨h1, h2, h3, h4⟩ := center_crop img400 h
  obtain ⟨c1, c2, c3⟩ := h4 rfl rfl
  refine ⟨h, ?_, ?_, ?_⟩
  · rw [h1]; rfl
  · rw [h2]; rfl
  · rw [h3 0 0, c1, c2]

/-- C1 counterexample: with the interpreter importable and the model file
present, an upload whose bytes do not decode as an RGB image does NOT
terminate the request with an error — `Image.open` runs inside the same
try/except as the model code, so the decode failure silently degrades to the
Mock backend and a 200 with a Mock `DetectionResult` is returned. -/
theorem undecodable_degrades_cex :
    badImageEnv.imageOk = false ∧
    infer_image badImageEnv
      = .ok (mockDetection badImageEnv.mockRand badImageEnv.now) ∧
    ∀ code detail, infer_image badImageEnv ≠ .httpError code detail := by
  refine ⟨rfl, rfl, fun code detail hcontra => ?_⟩
  rw [show infer_image badImageEnv
      = .ok (mockDetection badImageEnv.mockRand badImageEnv.now) from rfl] at hcontra
  exact InferResponse.noConfusion hcontra

/-- C1 amended: an undecodable image degrades to the Mock backend exactly
like every model-layer failure (interpreter missing, model file missing,
load/forward-pass exception), so the endpoint still returns a well-formed
`DetectionResult`; the only surfaced error is a failure outside the inference
block (saving the upload), which raises HTTP 500. -/
theorem degrade_policy (env : InferEnv) :
    (env.saveOk = false → infer_image env = .httpError 500 env.errMsg) ∧
    (env.saveOk = true →
      (env.interpreterAvailable = false ∨ env.modelExists = false ∨
        env.imageOk = false ∨ env.runOk = false) →
      infer_image env = .ok (mockDetection env.mockRand env.now)) ∧
    (env.saveOk = true → env.interpreterAvailable = true → env.modelExists = true →
      env.imageOk = true → env.runOk = true →
      infer_image env = .ok (realDetection env.out env.now)) := by
  refine ⟨fun h => ?_, fun hs hcase => ?_, fun h1 h2 h3 h4 h5 => ?_⟩
  · simp [infer_image, h]
  · rcases hcase with h | h | h | h <;> simp [infer_image, hs, h]
  · simp [infer_image, h1, h2, h3, h4, h5]

/-- Witness for C1 (amended) on the undecodable-image environment. -/
theorem degrade_policy_witness :
    badImageEnv.saveOk = true ∧ badImageEnv.imageOk = false ∧
    infer_image badImageEnv
      = .ok (mockDetection badImageEnv.mockRand badImageEnv.now) :=
  ⟨rfl, rfl, (degrade_policy badImageEnv).2.1 rfl (Or.inr (Or.inr (Or.inl rfl)))⟩

/-- C5 counterexample: on the shape-fallback path the maximum of the tensor
is used DIRECTLY as the danger probability; it is not passed through Stage A.
For the rank-2 tensor with maximum `0.5` the code reports
`MODERATE`/`50.00`, whereas Stage A followed by Stage B applied to a
stabilized score of `0.5` would give danger `0.85` and tier `HIGH`. -/
theorem fallback_skips_stageA_cex :
    decodeDanger fallbackTensor = listMax fallbackTensor.data ∧
    listMax fallbackTensor.data = 1/2 ∧
    (realDetection fallbackTensor "t").status = "MODERATE" ∧
    (realDetection fallbackTensor "t").probability = 50 ∧
    dangerStatus (dangerProb (listMax fallbackTensor.data)) = "HIGH" ∧
    (realDetection fallbackTensor "t").status
      ≠ dangerStatus (dangerProb (listMax fallbackTensor.data)) := by
  have hmax : listMax fallbackTensor.data = 1/2 := by
    norm_num [fallbackTensor, listMax, max_def]
  have hd : decodeDanger fallbackTensor = listMax fallbackTensor.data := rfl
  refine ⟨hd, hmax, ?_, ?_, ?_, ?_⟩
  · show dangerStatus (decodeDanger fallbackTensor) = "MODERATE"
    rw [hd, hmax]
    norm_num [dangerStatus]
  · show round2 (decodeDanger fallbackTensor * 100) = 50
    rw [hd, hmax]
    norm_num [round2, round_eq, Int.floor_eq_iff]
  · rw [hmax]
    norm_num [dangerProb, dangerStatus, min_def]
  · show dangerStatus (decodeDanger fallbackTensor)
      ≠ dangerStatus (dangerProb (listMax fallbackTensor.data))
    rw [hd, hmax]
    norm_num [dangerProb, dangerStatus, min_def]
    decide

/-- C5 amended: for every raw output tensor whose rank is not 3, or whose
rank is 3 with fewer than 5 attributes, the stabilized value is the maximum
over the entire tensor, and it is used directly as the danger probability
(Stage A is skipped); only Stage B tiering and the percentage rounding are
applied to it. -/
theorem fallback_max_direct (t : RawTensor)
    (h : (∀ b a d, t.shape ≠ [b, a, d]) ∨
      (∃ b a d, t.shape = [b, a, d] ∧ a < 5)) :
    decodeDanger t = listMax t.data ∧
    ∀ now, (realDetection t now).status = dangerStatus (listMax t.data) ∧
      (realDetection t now).probability = round2 (listMax t.data * 100) := by
  have hd : decodeDanger t = listMax t.data := by
    unfold decodeDanger
    split
    · next b a d heq =>
      rcases h with h | ⟨b', a', d', hs, ha⟩
      · exact absurd heq (h b a d)
      · rw [heq] at hs
        simp only [List.cons.injEq, and_true] at hs
        obtain ⟨-, ha', -⟩ := hs
        rw [if_neg (by omega)]
    · rfl
  refine ⟨hd, fun now => ⟨?_, ?_⟩⟩
  · show dangerStatus (decodeDanger t) = dangerStatus (listMax t.data)
    rw [hd]
  · show round2 (decodeDanger t * 100) = round2 (listMax t.data * 100)
    rw [hd]

/-- Witness for C5 (amended) on the concrete rank-2 tensor. -/
theorem fallback_max_direct_witness :
    (∀ b a d, fallbackTensor.shape ≠ [b, a, d]) ∧
    decodeDanger fallbackTensor = listMax fallbackTensor.data := by
  have hne : ∀ b a d, fallbackTensor.shape ≠ [b, a, d] := by
    intro b a d hcontra
    simp [fallbackTensor] at hcontra
  exact ⟨hne, (fallback_max_direct fallbackTensor (Or.inl hne)).1⟩

/-- C4: on the normal decode path (rank 3, at least 5 attributes, at least
one detection) the stabilized score is `0.7 · top_k_avg + 0.3 · max_conf`,
where `k = min 5 dets`, `top_k_avg` is the mean of the `k` largest
per-detection confidences (attribute index 4) and `max_conf` is the largest
confidence; the decoded danger probability is Stage A applied to it. -/
theorem decoder_stabilized (t : RawTensor) (b attrs dets : ℕ)
    (hshape : t.shape = [b, attrs, dets]) (hattrs : 5 ≤ attrs)
    (hb : 1 ≤ b) (hdets : 1 ≤ dets)
    (hlen : t.data.length = t.shape.prod) :
    stabilizedOf (confSlice t.data dets)
      = 7/10 * ((topKLargest (confSlice t.data dets) (min 5 dets)).sum
          / ((min 5 dets : ℕ) : ℚ))
        + 3/10 * listMax (confSlice t.data dets) ∧
    listMax (confSlice t.data dets) ∈ confSlice t.data dets ∧
    (∀ x ∈ confSlice t.data dets, x ≤ listMax (confSlice t.data dets)) ∧
    decodeDanger t = dangerProb (stabilizedOf (confSlice t.data dets)) := by
  have hclen : (confSlice t.data dets).length = dets :=
    confSlice_length t b attrs dets hshape hattrs hb hlen
  have hne : confSlice t.data dets ≠ [] := by
    intro hnil
    rw [hnil] at hclen
    simp at hclen
    omega
  refine ⟨?_, listMax_mem _ hne, le_listMax _, ?_⟩
  · simp only [stabilizedOf, hclen]
    rw [topk_sum_eq]
  · unfold decodeDanger
    rw [hshape]
    exact if_pos hattrs

/-- Witness for C4 on the concrete `[1, 5, 3]` tensor. -/
theorem decoder_stabilized_witness :
    normalTensor.shape = [1, 5, 3] ∧
    normalTensor.data.length = normalTensor.shape.prod ∧
    stabilizedOf (confSlice normalTensor.data 3)
      = 7/10 * ((topKLargest (confSlice normalTensor.data 3) (min 5 3)).sum
          / ((min 5 3 : ℕ) : ℚ))
        + 3/10 * listMax (confSlice normalTensor.data 3) ∧
    decodeDanger normalTensor
      = dangerProb (stabilizedOf (confSlice normalTensor.data 3)) := by
  have h := decoder_stabilized normalTensor 1 5 3 rfl (by norm_num)
    (by norm_num) (by norm_num) (by decide)
  exact ⟨rfl, by decide, h.1, h.2.2.2⟩

/-- C7: on every path that returns a `DetectionResult` — the normal decode
and shape-fallback paths (both through `realDetection`, for any raw output
tensor the model can produce) and the Mock path (`rand ∈ [0, 1)`) — the
`probability` field lies in `[0, 100]` and is rounded to exactly 2 decimal
places (its value times 100 is an integer). -/
theorem probability_range (t : RawTensor) (rand : ℚ) (now : String)
    (hv : validOutput t) (hr0 : 0 ≤ rand) (hr1 : rand < 1) :
    (0 ≤ (realDetection t now).probability ∧
      (realDetection t now).probability ≤ 100 ∧
      ((realDetection t now).probability * 100).den = 1) ∧
    (0 ≤ (mockDetection rand now).probability ∧
      (mockDetection rand now).probability ≤ 100 ∧
      ((mockDetection rand now).probability * 100).den = 1) := by
  have h0 : round2 ((0 : ℚ)) = 0 := by simpa using round2_intCast 0
  have h100 : round2 ((100 : ℚ)) = 100 := by simpa using round2_intCast 100
  have hdr := decodeDanger_range t hv
  have hrp : (realDetection t now).probability = round2 (decodeDanger t * 100) := rfl
  have hmp : (mockDetection rand now).probability = round2 (10 + rand * 80) := rfl
  refine ⟨⟨?_, ?_, ?_⟩, ?_, ?_, ?_⟩
  · rw [hrp, ← h0]
    exact round2_mono (by nlinarith [hdr.1])
  · rw [hrp, ← h100]
    exact round2_mono (by nlinarith [hdr.2])
  · rw [hrp]
    exact round2_den _
  · rw [hmp, ← h0]
    exact round2_mono (by nlinarith)
  · rw [hmp, ← h100]
    exact round2_mono (by nlinarith)
  · rw [hmp]
    exact round2_den _

/-- Witness for C7 on the saturated `[1, 5, 1]` tensor and `rand = 1/2`. -/
theorem probability_range_witness :
    validOutput saturatedTensor ∧ (0 : ℚ) ≤ 1/2 ∧ (1/2 : ℚ) < 1 ∧
    0 ≤ (realDetection saturatedTensor "t").probability ∧
    (realDetection saturatedTensor "t").probability ≤ 100 ∧
    0 ≤ (mockDetection (1/2) "t").probability ∧
    (mockDetection (1/2) "t").probability ≤ 100 := by
  have hv : validOutput saturatedTensor := by
    refine ⟨by decide, ?_, ?_⟩
    · intro x hx
      fin_cases hx <;> norm_num
    · intro b a d hcontra _
      simp only [saturatedTensor, List.cons.injEq, and_true] at hcontra
      omega
  have h := probability_range saturatedTensor (1/2) "t" hv (by norm_num) (by norm_num)
  exact ⟨hv, by norm_num, by norm_num, h.1.1, h.1.2.1, h.2.1, h.2.2.1⟩

/-- C10: Stage A never exceeds `0.85`, so on the normal decode path (rank-3
output with at least 5 attributes) the reported probability is at most 85.00
for every tensor; and both excluded paths really can exceed it — a concrete
shape-fallback tensor reports 90.00 and a concrete Mock draw reports 89.20. -/
theorem normal_path_capped :
    (∀ s : ℚ, dangerProb s ≤ 85/100) ∧
    (∀ (t : RawTensor) (now : String) (b attrs dets : ℕ),
      t.shape = [b, attrs, dets] → 5 ≤ attrs →
      (realDetection t now).probability ≤ 85) ∧
    (∃ (t : RawTensor) (now : String),
      t.shape.length ≠ 3 ∧ 85 < (realDetection t now).probability) ∧
    (∃ (rand : ℚ) (now : String),
      0 ≤ rand ∧ rand < 1 ∧ 85 < (mockDetection rand now).probability) := by
  have h85 : round2 ((85 : ℚ)) = 85 := by simpa using round2_intCast 85
  refine ⟨dangerProb_le, ?_, ?_, ?_⟩
  · intro t now b attrs dets hshape hattrs
    have hd : decodeDanger t = dangerProb (stabilizedOf (confSlice t.data dets)) := by
      unfold decodeDanger
      rw [hshape]
      exact if_pos hattrs
    have hrp : (realDetection t now).probability = round2 (decodeDanger t * 100) := rfl
    rw [hrp, hd, ← h85]
    exact round2_mono
      (by nlinarith [dangerProb_le (stabilizedOf (confSlice t.data dets))])
  · refine ⟨⟨[2, 2], [9/10, 0, 0, 0]⟩, "t", by decide, ?_⟩
    have hrp : (realDetection (⟨[2, 2], [9/10, 0, 0, 0]⟩ : RawTensor) "t").probability
        = round2 (listMax [9/10, 0, 0, 0] * 100) := rfl
    rw [hrp]
    have hm : listMax [(9 : ℚ)/10, 0, 0, 0] = 9/10 := by
      norm_num [listMax, max_def]
    rw [hm]
    have h90 : round2 ((9/10) * 100) = 90 := by
      norm_num [round2, round_eq, Int.floor_eq_iff]
    rw [h90]
    norm_num
  · refine ⟨99/100, "t", by norm_num, by norm_num, ?_⟩
    have hmp : (mockDetection (99/100) "t").probability
        = round2 (10 + (99/100) * 80) := rfl
    rw [hmp]
    have hv : round2 (10 + (99/100) * 80) = 446/5 := by
      norm_num [round2, round_eq, Int.floor_eq_iff]
    rw [hv]
    norm_num

/-- Witness for C10 on the saturated tensor: every confidence at `1.0`
still reports exactly 85.00. -/
theorem normal_path_capped_witness :
    saturatedTensor.shape = [1, 5, 1] ∧ (5 : ℕ) ≤ 5 ∧
    (realDetection saturatedTensor "t").probability ≤ 85 ∧
    (realDetection saturatedTensor "t").probability = 85 := by
  refine ⟨rfl, le_refl 5,
    normal_path_capped.2.1 saturatedTensor "t" 1 5 1 rfl (le_refl 5), ?_⟩
  have hstab : stabilizedOf (confSlice saturatedTensor.data 1) = 1 := by
    norm_num [stabilizedOf, confSlice, saturatedTensor,
      List.insertionSort, List.orderedInsert, listMax, min_def]
  have hd : decodeDanger saturatedTensor
      = dangerProb (stabilizedOf (confSlice saturatedTensor.data 1)) := rfl
  have hrp : (realDetection saturatedTensor "t").probability
      = round2 (decodeDanger saturatedTensor * 100) := rfl
  rw [hrp, hd, hstab]
  have hp : dangerProb 1 = 85/100 := by
    norm_num [dangerProb, min_def]
  rw [hp]
  norm_num [round2, round_eq, Int.floor_eq_iff]

end TideSense
